import Mathlib

/-!
Shallow embedding of the coding-coach agent's core code, translated from the
TypeScript sources:

* `src/db/vectors.ts` (chunking, embedding upsert, text search),
* `src/agent/retrieval.ts` in its two variants (in-memory and RAG/Prisma),
* `src/agent/summarizer.ts`.

Modelling conventions:

* JS strings are modelled as `List Char` where character-level reasoning is
  needed (the chunker) and as `String` elsewhere; both carry exactly the
  code-point sequence.
* JS numbers are modelled as `ℕ`/`ℤ` for integer quantities and as `ℚ` for the
  fractional `overlap` parameter and similarity scores.  `Math.floor(n * o)`
  is modelled exactly as floor division of `n * o.num` by `o.den`.  The
  constants `0.8` and `0.15` are written as the rational literals `4/5` and
  `3/20` built by their anonymous constructors so that they evaluate.
* Fallible collaborators (database reads/writes, the OpenAI client, the SQL
  text-search backend) are modelled as `Except`-valued parameters: a `.error`
  value stands for a thrown exception/rejected promise, and each translated
  function reproduces the source's `try`/`catch` structure on it.
-/

namespace CoachAgent

/-- JS `Array.prototype.slice(start)` / `String.prototype.slice(start)` with a
single (possibly negative) start index: a negative start counts from the end,
clamped at 0; note that `-0 = 0`, so `slice(-0)` returns the whole list. -/
def jsSliceFrom {α : Type} (l : List α) (start : ℤ) : List α :=
  if start < 0 then l.drop ((l.length + start).toNat) else l.drop start.toNat

/-- Does `hay` start with `sub`?  Helper for the JS `String.prototype.includes`
model. -/
def startsWithSub : List Char → List Char → Bool
  | _, [] => true
  | [], _ :: _ => false
  | h :: hs, n :: ns => h = n && startsWithSub hs ns

/-- JS `hay.includes(sub)`: `sub` occurs contiguously in `hay`. -/
def containsSub (hay sub : List Char) : Bool :=
  match hay with
  | [] => sub.isEmpty
  | _ :: t => startsWithSub hay sub || containsSub t sub

/-- JS `s.includes(sub)` on `String`s. -/
def jsIncludes (s sub : String) : Bool := containsSub s.data sub.data

/-- JS `s.toLowerCase()` (ASCII case folding). -/
def lowerStr (s : String) : String := String.map Char.toLower s

/-- Model of `Math.floor(n * o)` for a nonnegative integer `n` and the JS number `o`
modelled as an exact rational: `n * o = (n * o.num) / o.den`, and flooring that
quotient is floor division (`Int.fdiv` rounds toward `-∞`). -/
def jsFloorMul (n : ℕ) (o : ℚ) : ℤ := Int.fdiv ((n : ℤ) * o.num) (o.den : ℤ)

/-- The rational literal `0.8` (the hard-coded similarity of both search
implementations), written so that it kernel-evaluates. -/
def simConst : ℚ := ⟨4, 5, by decide, by decide⟩

/-- Insertion step of a sort that is descending in `key` (ties keep their
relative order). -/
def insertDesc {α : Type} (key : α → ℚ) (x : α) : List α → List α
  | [] => [x]
  | y :: ys => if key y < key x then x :: y :: ys else y :: insertDesc key x ys

/-- Sort descending by `key`; models SQL `ORDER BY key DESC` (the relative
order of ties is unspecified in SQL; this model keeps input order). -/
def sortDesc {α : Type} (key : α → ℚ) (l : List α) : List α :=
  l.foldr (insertDesc key) []

namespace Vectors

/-- Input record of `upsertChunks` (interface `EmbeddingChunk`,
src/db/vectors.ts lines 137-141). -/
structure EmbeddingChunk where
  source : String
  sourceId : String
  chunk : String
deriving DecidableEq

/-- One stored `VectorEmbedding` row.  The `embedding` column (a JSON string
in the scheme) is modelled as the vector it encodes; `id` is the DB-generated
opaque key, modelled deterministically (no claim depends on its value). -/
structure Row where
  id : String
  source : String
  sourceId : String
  chunk : String
  embedding : List ℚ
deriving DecidableEq

/-- Result record of `searchChunks` (interface `SearchResult`,
src/db/vectors.ts lines 143-149). -/
structure SearchResult where
  id : String
  source : String
  sourceId : String
  chunk : String
  similarity : ℚ
deriving DecidableEq

/-- The `update` arm of the Prisma upsert: replace `chunk`/`embedding` on the
row whose `(source, sourceId)` equals the incoming chunk's key, leave other
rows alone. -/
def updateRow (c : EmbeddingChunk) (emb : List ℚ) (r : Row) : Row :=
  if r.source = c.source && r.sourceId = c.sourceId then
    {r with chunk := c.chunk, embedding := emb}
  else r

/-- Model of `prisma.vectorEmbedding.upsert` keyed on the composite unique key
`(source, sourceId)` (src/db/vectors.ts lines 190-207): update the matching
row's `chunk`/`embedding` when the key exists, insert a fresh row otherwise. -/
def dbUpsert (db : List Row) (c : EmbeddingChunk) (emb : List ℚ) : List Row :=
  if db.any (fun r => r.source = c.source && r.sourceId = c.sourceId) then
    db.map (updateRow c emb)
  else
    db ++ [{id := c.source ++ ":" ++ c.sourceId, source := c.source,
            sourceId := c.sourceId, chunk := c.chunk, embedding := emb}]

/-- The `for (let i = 0; i < chunks.length; i++)` loop of `upsertChunks`
(lines 184-208): upsert each chunk with its embedding; a missing embedding
(`!embedding`, i.e. the embeddings list ran out) skips the chunk
(`continue`). -/
def upsertLoop : List Row → List EmbeddingChunk → List (List ℚ) → List Row
  | db, [], _ => db
  | db, _ :: cs, [] => upsertLoop db cs []
  | db, c :: cs, e :: es => upsertLoop (dbUpsert db c e) cs es

/-- Model of `upsertChunks(chunks)` (src/db/vectors.ts lines 175-213): no-op on an
empty batch; otherwise embed all chunk texts in one call via the injected
embedding provider, then upsert each row.  A provider failure is caught and
re-thrown as the fixed error `'Failed to upsert chunks'`. -/
def upsertChunks (embed : List String → Except String (List (List ℚ)))
    (db : List Row) (chunks : List EmbeddingChunk) : Except String (List Row) :=
  if chunks.isEmpty then Except.ok db
  else
    match embed (chunks.map (fun c => c.chunk)) with
    | Except.error _ => Except.error "Failed to upsert chunks"
    | Except.ok embeddings => Except.ok (upsertLoop db chunks embeddings)

/-- Model of `searchChunks(query, limit = 8, threshold = 0.7)` (src/db/vectors.ts lines
218-243).  The raw SQL query is modelled by its meaning: `dbRes` is the
backend outcome (`.error` = the query threw, caught and turned into `[]`);
`matches` models the `to_tsvector @@ plainto_tsquery` text-search predicate
and `rank` the `ts_rank` score, both external to this code; the `SELECT`
attaches the constant `0.8` as `similarity`, orders descending by rank and
truncates to `limit`.  The `threshold` parameter is accepted but never
used by the query. -/
def searchChunks (dbRes : Except String (List Row)) (tsMatch : String → String → Bool)
    (rank : String → String → ℚ) (query : String) (limit : ℕ) (threshold : ℚ) :
    List SearchResult :=
  match dbRes with
  | Except.error _ => []
  | Except.ok rows =>
    ((sortDesc (fun r => rank r.chunk query) (rows.filter (fun r => tsMatch r.chunk query))).take
        limit).map
      (fun r => {id := r.id, source := r.source, sourceId := r.sourceId, chunk := r.chunk,
                 similarity := simConst})

/-- A sentence terminator of the chunker's `/[.!?]+/` split. -/
def isTerm (c : Char) : Bool := c = '.' || c = '!' || c = '?'

/-- Split a character list at every character satisfying `p`, keeping empty
pieces (the behaviour of JS `split` with a single-character separator class).
The source splits on the regex `/[.!?]+/`, which additionally collapses runs
of terminators; the two differ only in extra empty pieces, which the
`filter` in `sentencesOf` discards either way. -/
def splitOnPred (p : Char → Bool) : List Char → List (List Char)
  | [] => [[]]
  | c :: cs =>
    match splitOnPred p cs with
    | [] => []
    | s :: rest => if p c then [] :: s :: rest else (c :: s) :: rest

/-- JS `String.prototype.trim`: drop whitespace from both ends. -/
def trimChars (l : List Char) : List Char :=
  ((l.dropWhile Char.isWhitespace).reverse.dropWhile Char.isWhitespace).reverse

/-- Model of `text.split(/[.!?]+/).filter(s => s.trim().length > 0)` from `chunkText`. -/
def sentencesOf (text : List Char) : List (List Char) :=
  (splitOnPred isTerm text).filter (fun s => !(trimChars s).isEmpty)

/-- JS `currentChunk.split(' ')`: split at every single space, keeping empty
fragments (a trailing space yields a trailing empty "word"). -/
def splitOnSpace (l : List Char) : List (List Char) :=
  splitOnPred (fun c => c = ' ') l

/-- JS `words.join(' ')`. -/
def joinSpace (ws : List (List Char)) : List Char := List.intercalate [' '] ws

/-- The overlap seed computed at a chunk boundary in `chunkText`
(src/db/vectors.ts line 261):
`currentChunk.split(' ').slice(-Math.floor(currentChunk.split(' ').length * overlap)).join(' ')`.
Because `slice(-0)` is `slice(0)`, a floor of `0` keeps the whole word list. -/
def overlapSeed (currentChunk : List Char) (overlap : ℚ) : List Char :=
  let ws := splitOnSpace currentChunk
  joinSpace (jsSliceFrom ws (-(jsFloorMul ws.length overlap)))

/-- One iteration of the `for (const sentence of sentences)` loop of
`chunkText`; the state is `(chunks, currentChunk)`.  The source's `testChunk`
(`currentChunk + sentence + '. '`) is inlined. -/
def chunkStep (maxTokens : ℕ) (overlap : ℚ) (st : List (List Char) × List Char)
    (sentence : List Char) : List (List Char) × List Char :=
  if (st.2 ++ sentence ++ ('.' :: [' '])).length > maxTokens * 4 then
    if !st.2.isEmpty then
      (st.1 ++ [trimChars st.2], overlapSeed st.2 overlap ++ sentence ++ ('.' :: [' ']))
    else
      (st.1, sentence ++ ('.' :: [' ']))
  else
    (st.1, st.2 ++ sentence ++ ('.' :: [' ']))

/-- The epilogue of `chunkText` (lines 271-273): emit the final buffer when its
trimmed form is non-empty. -/
def chunkFinish (st : List (List Char) × List Char) : List (List Char) :=
  if !(trimChars st.2).isEmpty then st.1 ++ [trimChars st.2] else st.1

/-- Model of `chunkText(text, maxTokens = 1000, overlap = 0.15)` from
src/db/vectors.ts lines 248-276, on the code-point sequence of the input. -/
def chunkText (text : List Char) (maxTokens : ℕ) (overlap : ℚ) : List (List Char) :=
  chunkFinish ((sentencesOf text).foldl (chunkStep maxTokens overlap) ([], []))

/-- Rendering of a run of sentences the way the accumulating buffer renders
them: each sentence followed by `". "`. -/
def renderSeg (seg : List (List Char)) : List Char :=
  (seg.map (fun s => s ++ ('.' :: [' ']))).flatten

/-- Loop invariant for `chunkText`: after consuming the sentence prefix `done`,
the state `(chunks, currentChunk)` decomposes into per-chunk sentence segments
plus a pending segment, every emitted chunk being the trim of an overlap seed
followed by the rendering of its segment. -/
def ChunkInv (done : List (List Char)) (st : List (List Char) × List Char) : Prop :=
  ∃ segs seeds pending curSeed,
    (∀ sg ∈ segs, sg ≠ ([] : List (List Char))) ∧
    seeds.length = segs.length ∧
    segs.flatten ++ pending = done ∧
    st.1 = List.zipWith (fun sd sg => trimChars (sd ++ renderSeg sg)) seeds segs ∧
    st.2 = curSeed ++ renderSeg pending ∧
    (pending = [] → curSeed = [])

/-- Modelled from the claim wording for comparison with the code: at a chunk
boundary the new buffer is seeded with exactly the trailing
`⌊wordCount × overlapFraction⌋` words of the previous buffer (so a floor of
`0` seeds an empty buffer); the word list is the code's single-space split. -/
def overlapSeedSpec (currentChunk : List Char) (overlap : ℚ) : List Char :=
  let ws := splitOnSpace currentChunk
  joinSpace (ws.drop (ws.length - (jsFloorMul ws.length overlap).toNat))

/-- Model of `chunkStep` with the claim-prescribed seed `overlapSeedSpec`. -/
def chunkStepSpecC7 (maxTokens : ℕ) (overlap : ℚ) (st : List (List Char) × List Char)
    (sentence : List Char) : List (List Char) × List Char :=
  if (st.2 ++ sentence ++ ('.' :: [' '])).length > maxTokens * 4 then
    if !st.2.isEmpty then
      (st.1 ++ [trimChars st.2], overlapSeedSpec st.2 overlap ++ sentence ++ ('.' :: [' ']))
    else
      (st.1, sentence ++ ('.' :: [' ']))
  else
    (st.1, st.2 ++ sentence ++ ('.' :: [' ']))

/-- The chunker as the C7 claim literally describes it (seed = trailing
fraction of words, empty when the floor is zero). -/
def chunkTextSpecC7 (text : List Char) (maxTokens : ℕ) (overlap : ℚ) : List (List Char) :=
  chunkFinish ((sentencesOf text).foldl (chunkStepSpecC7 maxTokens overlap) ([], []))

/-- The amended seed rule: trailing `⌊wordCount × overlapFraction⌋` words of
the previous buffer (word list = single-space split, boundary fragments
included), except that a floor of `0` seeds the whole previous buffer
(JS `slice(-0)` is `slice(0)`). -/
def overlapSeedAmended (currentChunk : List Char) (overlap : ℚ) : List Char :=
  let ws := splitOnSpace currentChunk
  let k := (jsFloorMul ws.length overlap).toNat
  if k = 0 then joinSpace ws else joinSpace (ws.drop (ws.length - k))

/-- Model of `chunkStep` with the amended seed rule. -/
def chunkStepAmendedC7 (maxTokens : ℕ) (overlap : ℚ) (st : List (List Char) × List Char)
    (sentence : List Char) : List (List Char) × List Char :=
  if (st.2 ++ sentence ++ ('.' :: [' '])).length > maxTokens * 4 then
    if !st.2.isEmpty then
      (st.1 ++ [trimChars st.2], overlapSeedAmended st.2 overlap ++ sentence ++ ('.' :: [' ']))
    else
      (st.1, sentence ++ ('.' :: [' ']))
  else
    (st.1, st.2 ++ sentence ++ ('.' :: [' ']))

/-- The chunker as the amended C7 claim describes it. -/
def chunkTextAmendedC7 (text : List Char) (maxTokens : ℕ) (overlap : ℚ) : List (List Char) :=
  chunkFinish ((sentencesOf text).foldl (chunkStepAmendedC7 maxTokens overlap) ([], []))

/-- Number of stored rows carrying the key `(s, sid)`. -/
def keyCount (db : List Row) (s sid : String) : ℕ :=
  (db.filter (fun r => r.source = s && r.sourceId = sid)).length

/-- No two stored chunks share the `(source, sourceId)` key. -/
def UniqueKeys (db : List Row) : Prop := ∀ s sid, keyCount db s sid ≤ 1

end Vectors

/-- Model of `role: 'user' | 'assistant' | 'system'` is modelled as the role string.
Interface `ConversationMessage` of src/agent/retrieval.ts. -/
structure ConversationMessage where
  role : String
  content : String
  timestamp : ℕ
deriving DecidableEq

/-- Interface `RelevantDocument` of src/agent/retrieval.ts. -/
structure RelevantDocument where
  source : String
  sourceId : String
  chunk : String
  similarity : ℚ
deriving DecidableEq

/-- Interface `SkillProgress` of src/agent/retrieval.ts. -/
structure SkillProgress where
  skill : String
  score : ℕ
  lastPracticed : Option ℕ
  notes : Option String
deriving DecidableEq

/-- Interface `RetrievalContext` of src/agent/retrieval.ts (both variants
declare the identical shape). -/
structure RetrievalContext where
  recentMessages : List ConversationMessage
  relevantDocs : List RelevantDocument
  summary : Option String
  skillProgress : Option (List SkillProgress)
deriving DecidableEq

/- The in-memory (local-development) retrieval variant: `messageHistory` is a
`Map<string, ConversationMessage[]>`, modelled as a total lookup returning
`[]` for absent sessions (`messageHistory.get(sessionId) || []`). -/
namespace LocalRetrieval

/-- The in-memory message map. -/
def MessageStore : Type := String → List ConversationMessage

/-- Model of `storeMessage(sessionId, message)`: push onto the session's list. -/
def storeMessage (store : MessageStore) (sessionId : String)
    (message : ConversationMessage) : MessageStore :=
  fun k => if k = sessionId then store k ++ [message] else store k

/-- Model of `getRecentMessages(sessionId, limit = 20)` (in-memory variant):
`messages.slice(-limit)`. -/
def getRecentMessages (store : MessageStore) (sessionId : String) (limit : ℕ) :
    List ConversationMessage :=
  jsSliceFrom (store sessionId) (-(limit : ℤ))

/-- One record of the hard-coded `learningMaterials` list. -/
structure Material where
  source : String
  sourceId : String
  chunk : String
  keywords : List String

/-- The hard-coded `learningMaterials` of the local `getRelevantDocuments`. -/
def learningMaterials : List Material :=
  [{source := "css-design-system-best-practices",
    sourceId := "design-system-guide",
    chunk := "CSS Design Systems: Best Practices & Learning Guide. A design system is a collection of reusable styles and rules (colors, typography, spacing, components) that create consistency across your website or app.",
    keywords := ["css", "design", "system", "style", "component", "reusable"]},
   {source := "css-design-system-documentation",
    sourceId := "design-system-docs",
    chunk := "Token Architecture: Your tokens are organized into layers - Primitives (raw values), Alias (meaningful names), Mapped (semantic), Components (scoped tokens), and Responsive tokens.",
    keywords := ["token", "architecture", "primitive", "alias", "component", "responsive"]},
   {source := "html-basics",
    sourceId := "html-guide",
    chunk := "HTML is the structure of your webpage. Basic HTML structure includes DOCTYPE, html, head, and body elements. Use semantic elements like h1, p, div, span for better accessibility.",
    keywords := ["html", "structure", "element", "semantic", "head", "body"]},
   {source := "javascript-fundamentals",
    sourceId := "js-guide",
    chunk := "JavaScript makes your page interactive. Learn variables, functions, events, DOM manipulation. Start with simple interactions like button clicks and form handling.",
    keywords := ["javascript", "interactive", "function", "variable", "event", "dom"]}]

/-- Model of `getRelevantDocuments(query, limit = 8, threshold = 0.7)` (local variant,
src/agent/retrieval.ts lines 67-117): keyword filter over the hard-coded
materials, constant similarity `0.8`, truncated by `slice(0, limit)`; the
`threshold` parameter is accepted but unused. -/
def getRelevantDocuments (query : String) (limit : ℕ) (threshold : ℚ) :
    List RelevantDocument :=
  ((learningMaterials.filter
      (fun d => d.keywords.any (fun k => jsIncludes (lowerStr query) k))).map
    (fun d => {source := d.source, sourceId := d.sourceId, chunk := d.chunk,
               similarity := simConst})).take limit

end LocalRetrieval

/- The RAG (Prisma/pgvector) retrieval variant.  Its collaborators — the
`prisma.message.findMany` read, `searchChunks`, and `getLatestSummary` — are
modelled by their outcomes (`Except`-valued arguments). -/
namespace RagRetrieval

/-- One `Message` row of the database. -/
structure DbMessage where
  sessionId : String
  role : String
  content : String
  createdAt : ℕ
deriving DecidableEq

/-- Model of `getRecentMessages(sessionId, limit = 20)` (RAG variant, lines 328-350):
`findMany({orderBy: {createdAt: 'desc'}, take: limit})`, then `reverse()` back
to chronological order and repackaging.  `fetchRes` holds the session's rows
(in insertion order) or the thrown error, which the `catch` turns into `[]`. -/
def getRecentMessages (fetchRes : Except String (List DbMessage)) (limit : ℕ) :
    List ConversationMessage :=
  match fetchRes with
  | Except.error _ => []
  | Except.ok rows =>
    (((sortDesc (fun m => (m.createdAt : ℚ)) rows).take limit).reverse).map
      (fun m => {role := m.role, content := m.content, timestamp := m.createdAt})

/-- Model of `getRelevantDocuments(query, limit = 8, threshold = 0.7)` (RAG variant,
lines 355-373): forward the `searchChunks` results, repackaged; a thrown
collaborator error is caught and becomes `[]`. -/
def getRelevantDocuments (searchRes : Except String (List Vectors.SearchResult)) :
    List RelevantDocument :=
  match searchRes with
  | Except.error _ => []
  | Except.ok results =>
    results.map (fun r => {source := r.source, sourceId := r.sourceId, chunk := r.chunk,
                           similarity := r.similarity})

/-- Model of `getConversationSummary(sessionId)` (lines 378-385): forward
`getLatestSummary`; a thrown error is caught and becomes `undefined`. -/
def getConversationSummary (latestRes : Except String (Option String)) : Option String :=
  match latestRes with
  | Except.error _ => none
  | Except.ok o => o

/-- Model of `getSkillProgress(sessionId)` (lines 413-426): a hard-coded list. -/
def getSkillProgress (sessionId : String) : List SkillProgress :=
  [{skill := "html-basics", score := 75, lastPracticed := none,
    notes := some "Good understanding of elements and structure"},
   {skill := "css-selectors", score := 60, lastPracticed := none,
    notes := some "Working on advanced selectors"},
   {skill := "javascript-fundamentals", score := 45, lastPracticed := none,
    notes := some "Learning functions and variables"}]

/-- Model of `buildContext(userMessage, sessionId)` (lines 431-457): run the four
lookups (each of which absorbs its own collaborator's failure as above) and
assemble the context.  `orchestrationFailure` models an exception raised by
the surrounding `try` block itself (outside the four self-catching lookups):
its `catch` returns the all-empty context `{recentMessages: [], relevantDocs: []}`
with `summary`/`skillProgress` absent. -/
def buildContext (orchestrationFailure : Option String)
    (recentRes : Except String (List DbMessage))
    (searchRes : Except String (List Vectors.SearchResult))
    (summaryRes : Except String (Option String))
    (userMessage sessionId : String) : RetrievalContext :=
  match orchestrationFailure with
  | some _ => {recentMessages := [], relevantDocs := [], summary := none, skillProgress := none}
  | none =>
    {recentMessages := getRecentMessages recentRes 20,
     relevantDocs := getRelevantDocuments searchRes,
     summary := getConversationSummary summaryRes,
     skillProgress := some (getSkillProgress sessionId)}

end RagRetrieval

/-- Model of `${skill.skill}: ${skill.score}% (${skill.notes || 'no notes'})` — one
entry of the skill-progress block of `formatContextForPrompt`. -/
def skillLine (skill : SkillProgress) : String :=
  skill.skill ++ ": " ++ toString skill.score ++ "% (" ++
    (match skill.notes with
     | some n => if n = "" then "no notes" else n
     | none => "no notes") ++ ")"

/-- Model of `msg.role + ': ' + msg.content` — one line of the recent-conversation
block. -/
def messageLine (msg : ConversationMessage) : String := msg.role ++ ": " ++ msg.content

/-- Model of `doc.source + ': ' + doc.chunk` — one entry of the relevant-documents
block. -/
def docLine (doc : RelevantDocument) : String := doc.source ++ ": " ++ doc.chunk

/-- Model of `formatContextForPrompt(context, userMessage)` (identical in both
retrieval variants, src/agent/retrieval.ts lines 235-273 / 462-500):
conditionally push the labeled sections in fixed order and join with blank
lines.  JS truthiness of `context.summary` makes `some ""` count as absent. -/
def formatContextForPrompt (context : RetrievalContext) (userMessage : String) : String :=
  String.intercalate "\n\n"
    ((match context.summary with
      | some s => if s = "" then [] else ["CONVERSATION SUMMARY: " ++ s]
      | none => []) ++
     (match context.skillProgress with
      | some sp =>
        if sp.isEmpty then []
        else ["SKILL PROGRESS: " ++ String.intercalate ", " (sp.map skillLine)]
      | none => []) ++
     (if context.recentMessages.isEmpty then []
      else ["RECENT CONVERSATION:\n" ++
        String.intercalate "\n" ((jsSliceFrom context.recentMessages (-6)).map messageLine)]) ++
     (if context.relevantDocs.isEmpty then []
      else ["RELEVANT LEARNING MATERIALS:\n" ++
        String.intercalate "\n\n" ((context.relevantDocs.take 3).map docLine)]) ++
     ["CURRENT QUESTION: " ++ userMessage])

/-- Modelled from the claim wording for comparison with the code: the output
is the blank-line join of the present sections, listed in the fixed order
summary, skill progress, recent conversation (last 6 messages), relevant
documents (top 3), current question, each omitted exactly when its data is
empty. -/
def formatForPromptSpec (context : RetrievalContext) (userMessage : String) : String :=
  String.intercalate "\n\n" (List.filterMap id
    [(match context.summary with
      | some s => if s = "" then none else some ("CONVERSATION SUMMARY: " ++ s)
      | none => none),
     (match context.skillProgress with
      | some sp =>
        if sp.isEmpty then none
        else some ("SKILL PROGRESS: " ++ String.intercalate ", " (sp.map skillLine))
      | none => none),
     (if context.recentMessages.isEmpty then none
      else some ("RECENT CONVERSATION:\n" ++
        String.intercalate "\n" ((jsSliceFrom context.recentMessages (-6)).map messageLine))),
     (if context.relevantDocs.isEmpty then none
      else some ("RELEVANT LEARNING MATERIALS:\n" ++
        String.intercalate "\n\n" ((context.relevantDocs.take 3).map docLine))),
     some ("CURRENT QUESTION: " ++ userMessage)])

/-- The all-empty retrieval context. -/
def emptyContext : RetrievalContext :=
  {recentMessages := [], relevantDocs := [], summary := none, skillProgress := none}

namespace Summarizer

/-- A `Message` row as the summarizer reads it (role and content are what the
analysis functions consume). -/
structure SessionMessage where
  role : String
  content : String
deriving DecidableEq

/-- Interface `SkillUpdate` of src/agent/summarizer.ts. -/
structure SkillUpdate where
  skill : String
  change : ℤ
  evidence : String
deriving DecidableEq

/-- Interface `LearningStyle` of src/agent/summarizer.ts; the three union
types are modelled as their strings. -/
structure LearningStyle where
  preferredFormat : String
  pace : String
  feedback : String
  notes : List String
deriving DecidableEq

/-- Interface `ConversationSummary` of src/agent/summarizer.ts; `createdAt`
(`new Date()`) is modelled as a clock argument. -/
structure ConversationSummary where
  sessionId : String
  summary : String
  topics : List String
  skillProgress : List SkillUpdate
  learningStyle : LearningStyle
  createdAt : ℕ
deriving DecidableEq

/-- The `topicKeywords` table of `extractTopics` (lines 114-122), in object
insertion order. -/
def topicKeywords : List (String × List String) :=
  [("html", ["html", "element", "tag", "attribute", "semantic"]),
   ("css", ["css", "style", "selector", "property", "flexbox", "grid", "layout"]),
   ("javascript", ["javascript", "js", "function", "variable", "array", "object", "dom"]),
   ("responsive", ["responsive", "mobile", "breakpoint", "media query"]),
   ("accessibility", ["accessibility", "a11y", "screen reader", "semantic"]),
   ("performance", ["performance", "optimization", "speed", "loading"]),
   ("testing", ["test", "debug", "console", "error", "validation"])]

/-- Model of `extractTopics(messages)` (lines 112-134): a `Set` accumulated in
first-insertion order over messages × topic groups, capped at 5. -/
def extractTopics (messages : List SessionMessage) : List String :=
  (messages.foldl
    (fun acc m =>
      topicKeywords.foldl
        (fun acc2 tk =>
          if tk.2.any (fun k => jsIncludes (lowerStr m.content) k) then
            (if tk.1 ∈ acc2 then acc2 else acc2 ++ [tk.1])
          else acc2)
        acc)
    []).take 5

/-- One entry of the `skillIndicators` table of `analyzeSkillProgress`. -/
structure SkillIndicator where
  skill : String
  positive : List String
  negative : List String

/-- The `skillIndicators` table (lines 141-154). -/
def skillIndicators : List SkillIndicator :=
  [{skill := "html-basics",
    positive := ["created", "understood", "successful", "working"],
    negative := ["confused", "error", "broken", "not working"]},
   {skill := "css-selectors",
    positive := ["styled", "centered", "layout", "responsive"],
    negative := ["not styling", "not centered", "layout broken"]},
   {skill := "javascript-fundamentals",
    positive := ["function", "variable", "working", "console.log"],
    negative := ["syntax error", "undefined", "not working"]}]

/-- The per-skill scan of `analyzeSkillProgress`: over each message, `+10` and
an evidence fragment per present positive indicator, then `-5` per present
negative indicator. -/
def scanSkill (messages : List SessionMessage) (ind : SkillIndicator) : ℤ × String :=
  messages.foldl
    (fun st m =>
      let st1 := ind.positive.foldl
        (fun a i => if jsIncludes (lowerStr m.content) i then
            (a.1 + 10, a.2 ++ ("Used " ++ i ++ ", ")) else a)
        st
      ind.negative.foldl
        (fun a i => if jsIncludes (lowerStr m.content) i then
            (a.1 - 5, a.2 ++ ("Struggled with " ++ i ++ ", ")) else a)
        st1)
    (0, "")

/-- Model of `analyzeSkillProgress(messages)` (lines 139-190): keep each skill with a
non-zero accumulated change, clamped to `[-100, 100]`, evidence stripped of
its trailing `", "` by `slice(0, -2)`. -/
def analyzeSkillProgress (messages : List SessionMessage) : List SkillUpdate :=
  skillIndicators.foldl
    (fun acc ind =>
      let res := scanSkill messages ind
      if res.1 ≠ 0 then
        acc ++ [{skill := ind.skill, change := max (-100) (min 100 res.1),
                 evidence := res.2.dropRight 2}]
      else acc)
    []

/-- Model of `analyzeLearningStyle(messages)` (lines 195-236): phrase-presence
heuristics over the lowercased, space-joined message contents, defaulting to
`mixed`/`medium`/`mixed`; notes accumulate in format → pace → feedback
order. -/
def analyzeLearningStyle (messages : List SessionMessage) : LearningStyle :=
  let content := String.intercalate " " (messages.map (fun m => lowerStr m.content))
  let fmt :=
    if jsIncludes content "step by step" || jsIncludes content "tiny step" then
      ("step-by-step", ["Prefers step-by-step instructions"])
    else if jsIncludes content "example" || jsIncludes content "show me" then
      ("examples", ["Learns well from examples"])
    else if jsIncludes content "concept" || jsIncludes content "explain" then
      ("concepts", ["Wants conceptual understanding"])
    else ("mixed", [])
  let pace :=
    if jsIncludes content "slow" || jsIncludes content "take time" then
      ("slow", ["Prefers slower pace"])
    else if jsIncludes content "fast" || jsIncludes content "quick" then
      ("fast", ["Prefers faster pace"])
    else ("medium", [])
  let fb :=
    if jsIncludes content "detailed" || jsIncludes content "explain more" then
      ("detailed", ["Wants detailed explanations"])
    else if jsIncludes content "brief" || jsIncludes content "short" then
      ("brief", ["Prefers brief explanations"])
    else ("mixed", [])
  {preferredFormat := fmt.1, pace := pace.1, feedback := fb.1,
   notes := fmt.2 ++ pace.2 ++ fb.2}

/-- The fixed fallback summary string of `generateAISummary`. -/
def summaryFallback : String := "Session completed with progress made."

/-- The fixed summarization prompt built around the transcript (lines 83-90). -/
def summaryPrompt (conversation : String) : String :=
  "Summarize this coding coaching conversation in 2-3 sentences. Focus on:\n" ++
  "1. What the student learned or practiced\n" ++
  "2. Their current skill level and progress\n" ++
  "3. Any challenges or breakthroughs\n" ++
  "4. Learning style preferences observed\n\n" ++
  "Conversation:\n" ++ conversation ++ "\n\n" ++ "Summary:"

/-- Model of `generateAISummary(conversation)` (lines 78-107): call the completion
provider `ai` on the fixed prompt; a thrown error, a missing message content,
or an empty trimmed content all fall back to the fixed sentence
(`content?.trim() || fallback`). -/
def generateAISummary (ai : String → Except String (Option String))
    (conversation : String) : String :=
  match ai (summaryPrompt conversation) with
  | Except.ok (some s) => if s.trim.isEmpty then summaryFallback else s.trim
  | Except.ok none => summaryFallback
  | Except.error _ => summaryFallback

/-- Model of `generateSummary(sessionId)` (src/agent/summarizer.ts lines 35-73):
`fetchRes` is the outcome of the chronological `findMany` for the session (a
thrown read is caught by the outer `catch` and yields `null`); fewer than 4
messages yield `null`; otherwise the summary record is assembled from the
AI summary of the flattened transcript and the three pure analyses. -/
def generateSummary (fetchRes : Except String (List SessionMessage))
    (ai : String → Except String (Option String)) (sessionId : String) (now : ℕ) :
    Option ConversationSummary :=
  match fetchRes with
  | Except.error _ => none
  | Except.ok messages =>
    if messages.length < 4 then none
    else
      some {sessionId := sessionId,
            summary := generateAISummary ai
              (String.intercalate "\n" (messages.map (fun m => m.role ++ ": " ++ m.content))),
            topics := extractTopics messages,
            skillProgress := analyzeSkillProgress messages,
            learningStyle := analyzeLearningStyle messages,
            createdAt := now}

end Summarizer

end CoachAgent

/-! ## Theorems -/

namespace CoachAgent.Vectors

theorem renderSeg_append (a b : List (List Char)) :
    renderSeg (a ++ b) = renderSeg a ++ renderSeg b := by
  simp [renderSeg]

theorem renderSeg_singleton (s : List Char) : renderSeg [s] = s ++ ('.' :: [' ']) := by
  simp [renderSeg]

theorem renderSeg_eq_nil_iff (seg : List (List Char)) : renderSeg seg = [] ↔ seg = [] := by
  cases seg with
  | nil => simp [renderSeg]
  | cons s t => simp [renderSeg]

theorem chunkStep_inv (m : ℕ) (o : ℚ) (done : List (List Char))
    (st : List (List Char) × List Char) (s : List Char) (h : ChunkInv done st) :
    ChunkInv (done ++ [s]) (chunkStep m o st s) := by
  obtain ⟨segs, seeds, pending, curSeed, hne, hlen, hjoin, hchunks, hcur, hemp⟩ := h
  unfold chunkStep
  split
  · split
    · -- boundary with a non-empty buffer: close the chunk, seed the next one
      rename_i hlong hbuf
      have hpend : pending ≠ [] := by
        intro hp
        subst hp
        rw [hemp rfl] at hcur
        simp [renderSeg] at hcur
        simp [hcur] at hbuf
      refine ⟨segs ++ [pending], seeds ++ [curSeed], [s], overlapSeed st.2 o,
        ?_, ?_, ?_, ?_, ?_, ?_⟩
      · intro sg hsg
        rcases List.mem_append.mp hsg with h1 | h1
        · exact hne sg h1
        · rw [List.mem_singleton.mp h1]; exact hpend
      · simp [hlen]
      · simp only [List.flatten_append, List.flatten_cons, List.flatten_nil,
          List.append_nil, List.append_assoc]
        rw [← List.append_assoc, hjoin]
      · rw [hchunks, List.zipWith_append _ _ _ _ _ hlen, hcur]
        rfl
      · rw [renderSeg_singleton]
        simp [List.append_assoc]
      · intro hcontra; cases hcontra
    · -- boundary with an empty buffer: keep accumulating the long sentence
      rename_i hlong hbuf
      have hst2 : st.2 = [] := by
        have hb : st.2.isEmpty = true := by
          cases hb : st.2.isEmpty
          · simp [hb] at hbuf
          · rfl
        exact List.isEmpty_iff.mp hb
      have hpend : pending = [] := by
        rcases List.append_eq_nil.mp (hst2 ▸ hcur.symm) with ⟨h1, h2⟩
        exact (renderSeg_eq_nil_iff pending).mp h2
      refine ⟨segs, seeds, [s], [], hne, hlen, ?_, hchunks, ?_, ?_⟩
      · rw [← hjoin, hpend]
        simp
      · rw [renderSeg_singleton]
        rfl
      · intro hcontra; cases hcontra
  · -- no boundary: append the sentence to the running buffer
    refine ⟨segs, seeds, pending ++ [s], curSeed, hne, hlen, ?_, hchunks, ?_, ?_⟩
    · rw [← hjoin]
      simp [List.append_assoc]
    · rw [renderSeg_append, renderSeg_singleton, hcur]
      simp [List.append_assoc]
    · intro hcontra
      exact absurd hcontra (by simp)

theorem foldl_chunkStep_inv (m : ℕ) (o : ℚ) :
    ∀ (sentences done : List (List Char)) (st : List (List Char) × List Char),
      ChunkInv done st → ChunkInv (done ++ sentences) (sentences.foldl (chunkStep m o) st) := by
  intro sentences
  induction sentences with
  | nil => intro done st h; rw [List.append_nil]; exact h
  | cons s rest ih =>
    intro done st h
    have h1 := chunkStep_inv m o done st s h
    have h2 := ih (done ++ [s]) (chunkStep m o st s) h1
    rw [List.append_assoc] at h2
    exact h2

theorem dropWhile_exists_not {p : Char → Bool} :
    ∀ {l : List Char}, (∃ c ∈ l, p c = false) → ∃ c ∈ l.dropWhile p, p c = false := by
  intro l h
  induction l with
  | nil => simpa using h
  | cons c t ih =>
    by_cases hc : p c
    · obtain ⟨d, hd, hdp⟩ := h
      rcases List.mem_cons.mp hd with rfl | hdt
      · rw [hc] at hdp; cases hdp
      · rw [List.dropWhile_cons_of_pos hc]
        exact ih ⟨d, hdt, hdp⟩
    · rw [List.dropWhile_cons_of_neg hc]
      exact ⟨c, List.mem_cons_self c t, Bool.eq_false_iff.mpr hc⟩

theorem trimChars_ne_nil {l : List Char} (h : ∃ c ∈ l, c.isWhitespace = false) :
    trimChars l ≠ [] := by
  unfold trimChars
  obtain ⟨c, hc1, hc2⟩ := dropWhile_exists_not h
  have h2 : ∃ d ∈ (l.dropWhile Char.isWhitespace).reverse, d.isWhitespace = false :=
    ⟨c, List.mem_reverse.mpr hc1, hc2⟩
  obtain ⟨d, hd1, hd2⟩ := dropWhile_exists_not h2
  intro hcontra
  rw [List.reverse_eq_nil_iff] at hcontra
  rw [hcontra] at hd1
  cases hd1

theorem dot_mem_renderSeg {seg : List (List Char)} (h : seg ≠ []) : '.' ∈ renderSeg seg := by
  cases seg with
  | nil => cases h rfl
  | cons s t => simp [renderSeg]

theorem chunk_ne_nil (sd : List Char) {seg : List (List Char)} (h : seg ≠ []) :
    trimChars (sd ++ renderSeg seg) ≠ [] :=
  trimChars_ne_nil ⟨'.', List.mem_append.mpr (Or.inr (dot_mem_renderSeg h)), by decide⟩

theorem zip_chunks_ne_nil :
    ∀ (seeds : List (List Char)) (segs : List (List (List Char))),
      (∀ sg ∈ segs, sg ≠ ([] : List (List Char))) →
      ∀ c ∈ List.zipWith (fun sd sg => trimChars (sd ++ renderSeg sg)) seeds segs, c ≠ [] := by
  intro seeds
  induction seeds with
  | nil => intro segs _ c hc; cases hc
  | cons sd sds ih =>
    intro segs hsegs c hc
    cases segs with
    | nil => simp at hc
    | cons sg sgs =>
      rcases List.mem_cons.mp hc with rfl | htail
      · exact chunk_ne_nil sd (hsegs sg (List.mem_cons_self sg sgs))
      · exact ih sgs (fun x hx => hsegs x (List.mem_cons_of_mem sg hx)) c htail

/-- C1 counterexample: the input `" "` is a non-empty string, yet
`chunkText(" ", 1000, 0.15)` returns no chunk at all (the whitespace-only
piece is discarded by the sentence filter), refuting "chunkText returns at
least one chunk for every non-empty input text". -/
theorem chunkText_drops_whitespace_input :
    " ".data ≠ [] ∧ chunkText " ".data 1000 ⟨3, 20, by decide, by decide⟩ = [] := by
  decide

/-- C1 (amended): for every input text whose sentence split (terminator split,
whitespace-only pieces dropped) is non-empty, and every parameter pair,
`chunkText` returns at least one chunk, every returned chunk is a non-empty
string, and no sentence is dropped: the sentence sequence partitions into
consecutive non-empty segments, one per chunk in order, each chunk being the
trim of its overlap seed followed by the rendering of its segment. -/
theorem chunkText_complete (text : List Char) (maxTokens : ℕ) (overlap : ℚ)
    (h : sentencesOf text ≠ []) :
    chunkText text maxTokens overlap ≠ [] ∧
    (∀ c ∈ chunkText text maxTokens overlap, c ≠ []) ∧
    ∃ (segs : List (List (List Char))) (seeds : List (List Char)),
      segs.flatten = sentencesOf text ∧
      (∀ sg ∈ segs, sg ≠ ([] : List (List Char))) ∧
      seeds.length = segs.length ∧
      chunkText text maxTokens overlap =
        List.zipWith (fun sd sg => trimChars (sd ++ renderSeg sg)) seeds segs := by
  have hInit : ChunkInv [] ([], []) := by
    refine ⟨[], [], [], [], ?_, rfl, rfl, rfl, ?_, fun _ => rfl⟩
    · intro sg hsg; cases hsg
    · rfl
  have hInv := foldl_chunkStep_inv maxTokens overlap (sentencesOf text) [] ([], []) hInit
  rw [List.nil_append] at hInv
  obtain ⟨segs, seeds, pending, curSeed, hne, hlen, hjoin, hchunks, hcur, hemp⟩ := hInv
  unfold chunkText chunkFinish
  by_cases hp : pending = []
  · -- nothing pending: the final buffer is empty and nothing more is emitted
    have hseed : curSeed = [] := hemp hp
    have hcur2 : ((sentencesOf text).foldl (chunkStep maxTokens overlap) ([], [])).2 = [] := by
      rw [hcur, hp, hseed]; rfl
    rw [hcur2]
    have htrim : trimChars ([] : List Char) = [] := rfl
    rw [htrim]
    simp only [List.isEmpty_nil, Bool.not_true, Bool.false_eq_true, if_false]
    rw [hchunks]
    have hflat : segs.flatten = sentencesOf text := by rw [← hjoin, hp, List.append_nil]
    have hsegs_ne : segs ≠ [] := by
      intro hs; rw [hs] at hflat; exact h hflat.symm
    refine ⟨?_, ?_, segs, seeds, hflat, hne, hlen, rfl⟩
    · intro hz
      have := congrArg List.length hz
      rw [List.length_zipWith, hlen, min_self, List.length_nil] at this
      exact hsegs_ne (List.length_eq_zero.mp this)
    · exact zip_chunks_ne_nil seeds segs hne
  · -- a pending segment remains: it is emitted as the final chunk
    have htrim_ne : trimChars ((sentencesOf text).foldl (chunkStep maxTokens overlap) ([], [])).2 ≠ [] := by
      rw [hcur]; exact chunk_ne_nil curSeed hp
    have hbool : (trimChars ((sentencesOf text).foldl (chunkStep maxTokens overlap) ([], [])).2).isEmpty = false := by
      cases hb : (trimChars ((sentencesOf text).foldl (chunkStep maxTokens overlap) ([], [])).2).isEmpty
      · rfl
      · exact absurd (List.isEmpty_iff.mp hb) htrim_ne
    rw [hbool]
    simp only [Bool.not_false, if_true]
    refine ⟨by simp, ?_, segs ++ [pending], seeds ++ [curSeed], ?_, ?_, ?_, ?_⟩
    · intro c hc
      rcases List.mem_append.mp hc with h1 | h1
      · exact zip_chunks_ne_nil seeds segs hne c (hchunks ▸ h1)
      · rw [List.mem_singleton.mp h1]; exact htrim_ne
    · rw [List.flatten_append, List.flatten_cons, List.flatten_nil, List.append_nil]
      exact hjoin
    · intro sg hsg
      rcases List.mem_append.mp hsg with h1 | h1
      · exact hne sg h1
      · rw [List.mem_singleton.mp h1]; exact hp
    · simp [hlen]
    · rw [List.zipWith_append _ _ _ _ _ hlen, hchunks, hcur]
      rfl

/-- Witness for `chunkText_complete` at the two-sentence input
`"Hi there friend. Bye."` with `maxTokens = 1`, `overlap = 0.15`. -/
theorem chunkText_complete_witness :
    sentencesOf "Hi there friend. Bye.".data ≠ [] ∧
    (chunkText "Hi there friend. Bye.".data 1 ⟨3, 20, by decide, by decide⟩ ≠ [] ∧
     (∀ c ∈ chunkText "Hi there friend. Bye.".data 1 ⟨3, 20, by decide, by decide⟩, c ≠ []) ∧
     ∃ (segs : List (List (List Char))) (seeds : List (List Char)),
       segs.flatten = sentencesOf "Hi there friend. Bye.".data ∧
       (∀ sg ∈ segs, sg ≠ ([] : List (List Char))) ∧
       seeds.length = segs.length ∧
       chunkText "Hi there friend. Bye.".data 1 ⟨3, 20, by decide, by decide⟩ =
         List.zipWith (fun sd sg => trimChars (sd ++ renderSeg sg)) seeds segs) :=
  ⟨by decide, chunkText_complete "Hi there friend. Bye.".data 1 ⟨3, 20, by decide, by decide⟩ (by decide)⟩

theorem overlapSeed_eq_amended (cur : List Char) (o : ℚ) (ho : 0 ≤ o.num) :
    overlapSeed cur o = overlapSeedAmended cur o := by
  simp only [overlapSeed, overlapSeedAmended]
  by_cases h0 : jsFloorMul (splitOnSpace cur).length o = 0
  · rw [h0]
    simp [jsSliceFrom]
  · have hk : 0 ≤ jsFloorMul (splitOnSpace cur).length o :=
      Int.fdiv_nonneg (mul_nonneg (Int.ofNat_nonneg _) ho) (Int.ofNat_nonneg _)
    have harg : (((splitOnSpace cur).length : ℤ) +
        -(jsFloorMul (splitOnSpace cur).length o)).toNat =
        (splitOnSpace cur).length - (jsFloorMul (splitOnSpace cur).length o).toNat := by
      omega
    simp only [jsSliceFrom]
    rw [if_pos (by omega : -(jsFloorMul (splitOnSpace cur).length o) < 0), harg,
      if_neg (by omega : ¬ (jsFloorMul (splitOnSpace cur).length o).toNat = 0)]

theorem chunkStep_eq_amendedC7 (m : ℕ) (o : ℚ) (ho : 0 ≤ o.num) :
    chunkStep m o = chunkStepAmendedC7 m o := by
  funext st s
  unfold chunkStep chunkStepAmendedC7
  rw [overlapSeed_eq_amended st.2 o ho]

/-- C7 counterexample: at `chunkText("Hello there. Bye.", 1, 0.15)` the
boundary after the first sentence has a 3-fragment word list, so
`Math.floor(3 × 0.15) = 0`, and `slice(-0)` seeds the new buffer with the
*whole* previous buffer rather than with the trailing 0-word fraction the
claim prescribes: the second chunk is `"Hello there.  Bye."`, not `"Bye."`. -/
theorem chunkText_seed_cex :
    chunkText "Hello there. Bye.".data 1 ⟨3, 20, by decide, by decide⟩ ≠
      chunkTextSpecC7 "Hello there. Bye.".data 1 ⟨3, 20, by decide, by decide⟩ ∧
    chunkText "Hello there. Bye.".data 1 ⟨3, 20, by decide, by decide⟩ =
      ["Hello there.".data, "Hello there.  Bye.".data] ∧
    chunkTextSpecC7 "Hello there. Bye.".data 1 ⟨3, 20, by decide, by decide⟩ =
      ["Hello there.".data, "Bye.".data] := by
  decide

/-- C7 (amended): for every non-negative overlap fraction, `chunkText` is
exactly the greedy boundary algorithm of the claim with the seed rule amended
to the code's: the seed is the trailing `⌊wordCount × overlapFraction⌋` words
of the previous buffer (single-space split, boundary fragments counted as
words), except that a floor of `0` seeds the whole previous buffer. -/
theorem chunkText_eq_amendedC7 (text : List Char) (maxTokens : ℕ) (overlap : ℚ)
    (ho : 0 ≤ overlap.num) :
    chunkText text maxTokens overlap = chunkTextAmendedC7 text maxTokens overlap := by
  unfold chunkText chunkTextAmendedC7
  rw [chunkStep_eq_amendedC7 maxTokens overlap ho]

/-- Witness for `chunkText_eq_amendedC7` at `overlap = 0.15` and the
counterexample input. -/
theorem chunkText_eq_amendedC7_witness :
    (0 : ℤ) ≤ ((⟨3, 20, by decide, by decide⟩ : ℚ)).num ∧
    chunkText "Hello there. Bye.".data 1 ⟨3, 20, by decide, by decide⟩ =
      chunkTextAmendedC7 "Hello there. Bye.".data 1 ⟨3, 20, by decide, by decide⟩ :=
  ⟨by decide,
   chunkText_eq_amendedC7 "Hello there. Bye.".data 1 ⟨3, 20, by decide, by decide⟩ (by decide)⟩

theorem pairwise_sim_of_const {l : List SearchResult}
    (h : ∀ r ∈ l, r.similarity = simConst) :
    List.Pairwise (fun a b => b.similarity ≤ a.similarity) l := by
  induction l with
  | nil => exact List.Pairwise.nil
  | cons x t ih =>
    refine List.Pairwise.cons ?_ (ih fun r hr => h r (List.mem_cons_of_mem x hr))
    intro b hb
    rw [h b (List.mem_cons_of_mem x hb), h x (List.mem_cons_self x t)]

/-- C2 counterexample: with one stored row matched by the backend and a
threshold of `0.9`, `searchChunks` returns a result whose similarity is the
constant `0.8 < 0.9` — the `threshold` argument imposes no cutoff, refuting
"every returned result's similarity is at least the given threshold". -/
theorem searchChunks_ignores_threshold_cex :
    ¬ (∀ r ∈ searchChunks
        (Except.ok [{id := "1", source := "docs", sourceId := "1", chunk := "HTML",
                     embedding := []}])
        (fun _ _ => true) (fun _ _ => simConst) "HTML" 8 ⟨9, 10, by decide, by decide⟩,
        (⟨9, 10, by decide, by decide⟩ : ℚ) ≤ r.similarity) := by
  decide

/-- C2 (amended): for every backend row set, match predicate, rank function,
query, limit and threshold, `searchChunks` returns at most `limit` results and
they are non-increasing in similarity — trivially, since every returned
similarity is the constant `0.8`; the `threshold` argument is ignored (no
similarity cutoff is applied). -/
theorem searchChunks_limit_ordered (dbRows : List Row) (tsMatch : String → String → Bool)
    (rank : String → String → ℚ) (query : String) (limit : ℕ) (threshold : ℚ) :
    (searchChunks (Except.ok dbRows) tsMatch rank query limit threshold).length ≤ limit ∧
    List.Pairwise (fun a b => b.similarity ≤ a.similarity)
      (searchChunks (Except.ok dbRows) tsMatch rank query limit threshold) ∧
    ∀ r ∈ searchChunks (Except.ok dbRows) tsMatch rank query limit threshold,
      r.similarity = simConst := by
  have hconst : ∀ r ∈ searchChunks (Except.ok dbRows) tsMatch rank query limit threshold,
      r.similarity = simConst := by
    intro r hr
    simp only [searchChunks, List.mem_map] at hr
    obtain ⟨x, hx, rfl⟩ := hr
    rfl
  refine ⟨?_, pairwise_sim_of_const hconst, hconst⟩
  simp only [searchChunks, List.length_map, List.length_take]
  exact min_le_left _ _

/-- C3: the chunk-store failure policy.  For every non-empty batch, if the
embedding provider errors then `upsertChunks` raises the distinguishable
error `'Failed to upsert chunks'` rather than silently dropping the data; for
every query, if the search backend errors then `searchChunks` returns `[]`
rather than propagating the error. -/
theorem store_failure_policy (embed : List String → Except String (List (List ℚ)))
    (db : List Row) (chunks : List EmbeddingChunk) (e : String)
    (tsMatch : String → String → Bool) (rank : String → String → ℚ)
    (query : String) (limit : ℕ) (threshold : ℚ) (err : String)
    (hne : chunks ≠ [])
    (hemb : embed (chunks.map (fun c => c.chunk)) = Except.error e) :
    upsertChunks embed db chunks = Except.error "Failed to upsert chunks" ∧
    searchChunks (Except.error err) tsMatch rank query limit threshold = [] := by
  constructor
  · unfold upsertChunks
    rw [if_neg (fun hcontra => hne (List.isEmpty_iff.mp hcontra)), hemb]
  · rfl

/-- Witness for `store_failure_policy` on a one-chunk batch with a failing
provider and a failing search backend. -/
theorem store_failure_policy_witness :
    upsertChunks (fun _ => Except.error "boom") []
      [{source := "test", sourceId := "1", chunk := "HTML"}] =
      Except.error "Failed to upsert chunks" ∧
    searchChunks (Except.error "down") (fun _ _ => true) (fun _ _ => simConst)
      "q" 8 simConst = [] :=
  store_failure_policy (fun _ => Except.error "boom") []
    [{source := "test", sourceId := "1", chunk := "HTML"}] "boom"
    (fun _ _ => true) (fun _ _ => simConst) "q" 8 simConst "down"
    (by decide) rfl

theorem updateRow_source (c : EmbeddingChunk) (emb : List ℚ) (r : Row) :
    (updateRow c emb r).source = r.source := by
  unfold updateRow; split <;> rfl

theorem updateRow_sourceId (c : EmbeddingChunk) (emb : List ℚ) (r : Row) :
    (updateRow c emb r).sourceId = r.sourceId := by
  unfold updateRow; split <;> rfl

theorem filter_map_updateRow (db : List Row) (c : EmbeddingChunk) (emb : List ℚ)
    (s sid : String) :
    (db.map (updateRow c emb)).filter (fun r => r.source = s && r.sourceId = sid) =
      (db.filter (fun r => r.source = s && r.sourceId = sid)).map (updateRow c emb) := by
  rw [List.filter_map]
  congr 1
  apply List.filter_congr
  intro r _
  simp [Function.comp, updateRow_source, updateRow_sourceId]

theorem keyCount_map_updateRow (db : List Row) (c : EmbeddingChunk) (emb : List ℚ)
    (s sid : String) :
    keyCount (db.map (updateRow c emb)) s sid = keyCount db s sid := by
  unfold keyCount
  rw [filter_map_updateRow, List.length_map]

theorem keyCount_append_single (db : List Row) (r : Row) (s sid : String) :
    keyCount (db ++ [r]) s sid =
      keyCount db s sid + (if r.source = s && r.sourceId = sid then 1 else 0) := by
  unfold keyCount
  rw [List.filter_append, List.length_append]
  congr 1
  by_cases h : (r.source = s && r.sourceId = sid) = true
  · simp [List.filter_cons, h]
  · simp [List.filter_cons, h]

theorem uniqueKeys_dbUpsert (db : List Row) (c : EmbeddingChunk) (emb : List ℚ)
    (hu : UniqueKeys db) : UniqueKeys (dbUpsert db c emb) := by
  intro s sid
  unfold dbUpsert
  split
  · rw [keyCount_map_updateRow]
    exact hu s sid
  · rename_i hany
    rw [keyCount_append_single]
    split
    · rename_i hkey
      simp only [Bool.and_eq_true, decide_eq_true_eq] at hkey
      have hzero : keyCount db s sid = 0 := by
        unfold keyCount
        rw [List.length_eq_zero, List.filter_eq_nil_iff]
        intro r hr hcontra
        apply List.any_eq_false.mp (Bool.eq_false_iff.mpr hany) r hr
        simp only [Bool.and_eq_true, decide_eq_true_eq] at hcontra ⊢
        exact ⟨hcontra.1.trans hkey.1.symm, hcontra.2.trans hkey.2.symm⟩
      omega
    · have := hu s sid
      omega

theorem filter_key_dbUpsert (db : List Row) (c : EmbeddingChunk) (emb : List ℚ)
    (hu : UniqueKeys db) :
    ((dbUpsert db c emb).filter (fun r => r.source = c.source && r.sourceId = c.sourceId)).map
      (fun r => (r.chunk, r.embedding)) = [(c.chunk, emb)] := by
  unfold dbUpsert
  split
  · rename_i hany
    rw [filter_map_updateRow]
    have hge : 1 ≤ keyCount db c.source c.sourceId := by
      obtain ⟨r, hr, hkey⟩ := List.any_eq_true.mp hany
      have : r ∈ db.filter (fun r => r.source = c.source && r.sourceId = c.sourceId) :=
        List.mem_filter.mpr ⟨hr, hkey⟩
      have hpos := List.length_pos.mpr (List.ne_nil_of_mem this)
      exact hpos
    have hone : keyCount db c.source c.sourceId = 1 :=
      le_antisymm (hu c.source c.sourceId) hge
    unfold keyCount at hone
    obtain ⟨r0, hr0⟩ := List.length_eq_one.mp hone
    rw [hr0]
    have hkey0 : (r0.source = c.source && r0.sourceId = c.sourceId) = true := by
      have : r0 ∈ db.filter (fun r => r.source = c.source && r.sourceId = c.sourceId) := by
        rw [hr0]; exact List.mem_singleton.mpr rfl
      exact (List.mem_filter.mp this).2
    simp only [List.map_cons, List.map_nil, updateRow, hkey0, if_true]
  · rename_i hany
    have hdb : db.filter (fun r => r.source = c.source && r.sourceId = c.sourceId) = [] := by
      rw [List.filter_eq_nil_iff]
      intro r hr
      exact List.any_eq_false.mp (Bool.eq_false_iff.mpr hany) r hr
    rw [List.filter_append, hdb, List.nil_append]
    simp

/-- C6: chunk upsert is idempotent on the `(source, sourceId)` key.  Starting
from any store without duplicate keys, upserting a one-chunk batch twice
(with the embedding provider succeeding on both calls) succeeds, leaves a
store that still has no two chunks sharing a key, and leaves exactly one
record under the upserted key, holding the text and vector written by the
second call. -/
theorem upsertChunks_idempotent (embed : List String → Except String (List (List ℚ)))
    (db : List Row) (c1 c2 : EmbeddingChunk) (e1 e2 : List ℚ)
    (hu : UniqueKeys db)
    (h1 : embed [c1.chunk] = Except.ok [e1]) (h2 : embed [c2.chunk] = Except.ok [e2]) :
    ∃ db1 db2,
      upsertChunks embed db [c1] = Except.ok db1 ∧
      upsertChunks embed db1 [c2] = Except.ok db2 ∧
      UniqueKeys db2 ∧
      (db2.filter (fun r => r.source = c2.source && r.sourceId = c2.sourceId)).map
        (fun r => (r.chunk, r.embedding)) = [(c2.chunk, e2)] := by
  refine ⟨dbUpsert db c1 e1, dbUpsert (dbUpsert db c1 e1) c2 e2, ?_, ?_, ?_, ?_⟩
  · simp only [upsertChunks, List.isEmpty_cons, Bool.false_eq_true, if_false,
      List.map_cons, List.map_nil, h1]
    rfl
  · simp only [upsertChunks, List.isEmpty_cons, Bool.false_eq_true, if_false,
      List.map_cons, List.map_nil, h2]
    rfl
  · exact uniqueKeys_dbUpsert _ c2 e2 (uniqueKeys_dbUpsert db c1 e1 hu)
  · exact filter_key_dbUpsert _ c2 e2 (uniqueKeys_dbUpsert db c1 e1 hu)

/-- Witness for `upsertChunks_idempotent`: the smoke test's `(test, 1)` chunk
upserted twice into an empty store. -/
theorem upsertChunks_idempotent_witness :
    ∃ db1 db2,
      upsertChunks (fun _ => Except.ok [([] : List ℚ)]) []
        [{source := "test", sourceId := "1", chunk := "HTML"}] = Except.ok db1 ∧
      upsertChunks (fun _ => Except.ok [([] : List ℚ)]) db1
        [{source := "test", sourceId := "1", chunk := "HTML"}] = Except.ok db2 ∧
      UniqueKeys db2 ∧
      (db2.filter (fun r => r.source = "test" && r.sourceId = "1")).map
        (fun r => (r.chunk, r.embedding)) = [("HTML", ([] : List ℚ))] :=
  upsertChunks_idempotent (fun _ => Except.ok [([] : List ℚ)]) []
    {source := "test", sourceId := "1", chunk := "HTML"}
    {source := "test", sourceId := "1", chunk := "HTML"} [] []
    (fun _ _ => Nat.zero_le 1) rfl rfl

end CoachAgent.Vectors

namespace CoachAgent

theorem simConst_eq : simConst = 4 / 5 := by
  rw [simConst]
  norm_num [Rat.mk'_eq_divInt, Rat.divInt_eq_div]

/-- C10: the similarity attached to every search result is the constant `0.8`,
independent of the query, the stored rows, and the threshold argument — for
`searchChunks` (the SQL `SELECT ... 0.8 as similarity`) and for the
keyword-matching local `getRelevantDocuments` alike. -/
theorem similarity_is_constant (dbRes : Except String (List Vectors.Row))
    (tsMatch : String → String → Bool) (rank : String → String → ℚ)
    (query : String) (limit : ℕ) (threshold : ℚ)
    (q2 : String) (l2 : ℕ) (t2 : ℚ) :
    (∀ r ∈ Vectors.searchChunks dbRes tsMatch rank query limit threshold,
       r.similarity = 4 / 5) ∧
    (∀ d ∈ LocalRetrieval.getRelevantDocuments q2 l2 t2, d.similarity = 4 / 5) := by
  constructor
  · intro r hr
    cases dbRes with
    | error e => cases hr
    | ok rows =>
      simp only [Vectors.searchChunks, List.mem_map] at hr
      obtain ⟨x, hx, rfl⟩ := hr
      exact simConst_eq
  · intro d hd
    simp only [LocalRetrieval.getRelevantDocuments] at hd
    have hd2 := List.mem_of_mem_take hd
    rw [List.mem_map] at hd2
    obtain ⟨x, hx, rfl⟩ := hd2
    exact simConst_eq

end CoachAgent

namespace CoachAgent.RagRetrieval

/-- C5: `buildContext` never fails as a unit.  A failing relevance search
leaves `relevantDocs` empty while `recentMessages` is still whatever the
message-store lookup yields; a failing message fetch leaves `recentMessages`
empty while `relevantDocs` is still computed from the search outcome; a
failing summary lookup leaves `summary` absent; and an orchestration-level
failure returns the context with every field empty rather than propagating. -/
theorem buildContext_degrades
    (recentRes : Except String (List DbMessage))
    (searchRes : Except String (List Vectors.SearchResult))
    (summaryRes : Except String (Option String))
    (um sid e1 e2 e3 err : String) :
    ((buildContext none recentRes (Except.error e2) summaryRes um sid).relevantDocs = [] ∧
     (buildContext none recentRes (Except.error e2) summaryRes um sid).recentMessages =
       getRecentMessages recentRes 20 ∧
     (buildContext none recentRes (Except.error e2) summaryRes um sid).skillProgress =
       some (getSkillProgress sid)) ∧
    ((buildContext none (Except.error e1) searchRes summaryRes um sid).recentMessages = [] ∧
     (buildContext none (Except.error e1) searchRes summaryRes um sid).relevantDocs =
       getRelevantDocuments searchRes) ∧
    (buildContext none recentRes searchRes (Except.error e3) um sid).summary = none ∧
    ((buildContext (some err) recentRes searchRes summaryRes um sid).recentMessages = [] ∧
     (buildContext (some err) recentRes searchRes summaryRes um sid).relevantDocs = [] ∧
     (buildContext (some err) recentRes searchRes summaryRes um sid).summary = none ∧
     (buildContext (some err) recentRes searchRes summaryRes um sid).skillProgress = none) :=
  ⟨⟨rfl, rfl, rfl⟩, ⟨rfl, rfl⟩, rfl, rfl, rfl, rfl, rfl⟩

end CoachAgent.RagRetrieval

namespace CoachAgent.LocalRetrieval

/-- C8 counterexample: with one stored message, `getRecentMessages(session, 0)`
returns the whole log (JS `slice(-0)` is `slice(0)`) instead of the most
recent zero messages, refuting the claim for `limit = 0`. -/
theorem getRecentMessages_limit_zero_cex :
    getRecentMessages
      (storeMessage (fun _ => []) "s" {role := "user", content := "hi", timestamp := 0})
      "s" 0 =
      [{role := "user", content := "hi", timestamp := 0}] ∧
    ([{role := "user", content := "hi", timestamp := 0}] : List ConversationMessage) ≠ [] := by
  decide

/-- C8 (amended): for every session log and every *positive* limit, the
in-memory conversation store's recent-messages operation returns the most
recent `limit` messages of that session in chronological oldest-first order —
a suffix of the insertion-ordered log, of length `min limit size`; in
particular, when the session starts fresh (its log is empty), appending
`m1, m2, m3` in that order makes `recent(session, 3)` return `[m1, m2, m3]`. -/
theorem getRecentMessages_recent (store : MessageStore) (sid : String) (limit : ℕ)
    (m1 m2 m3 : ConversationMessage) (hpos : 0 < limit) :
    (getRecentMessages store sid limit).length = min limit (store sid).length ∧
    (getRecentMessages store sid limit).IsSuffix (store sid) ∧
    (store sid = [] →
      getRecentMessages
        (storeMessage (storeMessage (storeMessage store sid m1) sid m2) sid m3) sid 3 =
        [m1, m2, m3]) := by
  refine ⟨?_, ?_, ?_⟩
  · unfold getRecentMessages jsSliceFrom
    rw [if_pos (by omega : -(limit : ℤ) < 0), List.length_drop]
    omega
  · unfold getRecentMessages jsSliceFrom
    split
    · exact List.drop_suffix _ _
    · exact List.drop_suffix _ _
  · intro hfresh
    unfold getRecentMessages storeMessage jsSliceFrom
    simp only [if_pos rfl]
    rw [hfresh]
    rfl

/-- Witness for `getRecentMessages_recent`, first at a one-message session
log with limit 2 (exercising the general length and suffix conjuncts on a
non-empty log), then at the empty store (exercising the append scenario). -/
theorem getRecentMessages_recent_witness :
    ((getRecentMessages (fun _ => [{role := "system", content := "m", timestamp := 5}]) "s"
        2).length =
      min 2 ([{role := "system", content := "m", timestamp := 5}] :
        List ConversationMessage).length ∧
     (getRecentMessages (fun _ => [{role := "system", content := "m", timestamp := 5}]) "s"
        2).IsSuffix [{role := "system", content := "m", timestamp := 5}] ∧
     (([{role := "system", content := "m", timestamp := 5}] : List ConversationMessage) = [] →
       getRecentMessages
         (storeMessage (storeMessage (storeMessage
             (fun _ => [{role := "system", content := "m", timestamp := 5}]) "s"
             {role := "user", content := "a", timestamp := 0}) "s"
             {role := "assistant", content := "b", timestamp := 1}) "s"
             {role := "user", content := "c", timestamp := 2}) "s" 3 =
         [{role := "user", content := "a", timestamp := 0},
          {role := "assistant", content := "b", timestamp := 1},
          {role := "user", content := "c", timestamp := 2}])) ∧
    ((getRecentMessages (fun _ => []) "s" 2).length =
      min 2 (([] : List ConversationMessage)).length ∧
     (getRecentMessages (fun _ => []) "s" 2).IsSuffix ([] : List ConversationMessage) ∧
     (([] : List ConversationMessage) = [] →
       getRecentMessages
         (storeMessage (storeMessage (storeMessage (fun _ => []) "s"
             {role := "user", content := "a", timestamp := 0}) "s"
             {role := "assistant", content := "b", timestamp := 1}) "s"
             {role := "user", content := "c", timestamp := 2}) "s" 3 =
         [{role := "user", content := "a", timestamp := 0},
          {role := "assistant", content := "b", timestamp := 1},
          {role := "user", content := "c", timestamp := 2}])) :=
  ⟨getRecentMessages_recent (fun _ => [{role := "system", content := "m", timestamp := 5}]) "s" 2
    {role := "user", content := "a", timestamp := 0}
    {role := "assistant", content := "b", timestamp := 1}
    {role := "user", content := "c", timestamp := 2} (by decide),
   getRecentMessages_recent (fun _ => []) "s" 2
    {role := "user", content := "a", timestamp := 0}
    {role := "assistant", content := "b", timestamp := 1}
    {role := "user", content := "c", timestamp := 2} (by decide)⟩

end CoachAgent.LocalRetrieval

namespace CoachAgent

/-- C9: `formatContextForPrompt` is the deterministic ordered rendering the
spec describes — the blank-line join of the labeled sections in the fixed
order summary, skill progress, recent conversation (at most the last 6
messages), relevant documents (at most the top 3), current question, each
omitted exactly when its data is empty — and on the all-empty context with
message `"hello"` the output is exactly `CURRENT QUESTION: hello`. -/
theorem formatForPrompt_sections :
    (∀ (context : RetrievalContext) (userMessage : String),
      formatContextForPrompt context userMessage = formatForPromptSpec context userMessage) ∧
    formatContextForPrompt emptyContext "hello" = "CURRENT QUESTION: hello" := by
  constructor
  · intro context userMessage
    rcases context with ⟨rm, rd, sum, sp⟩
    unfold formatContextForPrompt formatForPromptSpec
    cases sum <;> cases sp <;> dsimp only <;> split_ifs <;> rfl
  · decide

end CoachAgent

namespace CoachAgent.Summarizer

/-- C4: `generateSummary` (with the session's message read succeeding) yields
nothing — `none`, not an error — when the log holds fewer than 4 messages,
and yields a summary when it holds 4 or more, whatever the completion
provider does. -/
theorem generateSummary_min_messages (msgs : List SessionMessage)
    (ai : String → Except String (Option String)) (sid : String) (now : ℕ) :
    (msgs.length < 4 → generateSummary (Except.ok msgs) ai sid now = none) ∧
    (4 ≤ msgs.length → ∃ s, generateSummary (Except.ok msgs) ai sid now = some s) := by
  constructor
  · intro h
    unfold generateSummary
    dsimp only
    rw [if_pos h]
  · intro h
    unfold generateSummary
    dsimp only
    rw [if_neg (by omega)]
    exact ⟨_, rfl⟩

/-- Witness for `generateSummary_min_messages`: a 3-message session yields no
summary, a 4-message session yields one, under a failing completion
provider. -/
theorem generateSummary_min_messages_witness :
    (([{role := "user", content := "a"}, {role := "assistant", content := "b"},
       {role := "user", content := "c"}] : List SessionMessage).length < 4 ∧
     generateSummary
       (Except.ok [{role := "user", content := "a"}, {role := "assistant", content := "b"},
                   {role := "user", content := "c"}])
       (fun _ => Except.error "down") "s" 0 = none) ∧
    (4 ≤ ([{role := "user", content := "a"}, {role := "assistant", content := "b"},
           {role := "user", content := "c"}, {role := "assistant", content := "d"}] :
            List SessionMessage).length ∧
     ∃ s, generateSummary
       (Except.ok [{role := "user", content := "a"}, {role := "assistant", content := "b"},
                   {role := "user", content := "c"}, {role := "assistant", content := "d"}])
       (fun _ => Except.error "down") "s" 0 = some s) :=
  ⟨⟨by decide,
    (generateSummary_min_messages
      [{role := "user", content := "a"}, {role := "assistant", content := "b"},
       {role := "user", content := "c"}]
      (fun _ => Except.error "down") "s" 0).1 (by decide)⟩,
   ⟨by decide,
    (generateSummary_min_messages
      [{role := "user", content := "a"}, {role := "assistant", content := "b"},
       {role := "user", content := "c"}, {role := "assistant", content := "d"}]
      (fun _ => Except.error "down") "s" 0).2 (by decide)⟩⟩

end CoachAgent.Summarizer
